import Mathlib

/-!
Verification of the deadline classification engine of the packaging
compliance dashboard (`src/streamlit_app.py`): the date resolver
`extract_deadline_as_date` together with its helpers `_end_of_quarter` and
`_excel_serial_to_date`, and the bucket policy `categorize_deadline`.

The embedding models Python `datetime.date` values as triples of naturals
with the proleptic-Gregorian ordinal (`date.toordinal`) used for date
subtraction, exactly as CPython implements `date.__sub__`.  The permissive
`pd.to_datetime` fallback parser is an external library routine whose
behaviour the spec leaves open ("a permissive parser"); it is passed in as
an explicit function parameter `pdParse`, so every theorem below holds for
every possible behaviour of that parser unless it instantiates it.
-/

set_option autoImplicit false

/-- A calendar date, mirroring Python `datetime.date` (year, month, day).
Validity (what the `date` constructor accepts) is the separate predicate
`DateValid`. -/
structure Date where
  year : Nat
  month : Nat
  day : Nat
deriving DecidableEq, Repr

instance {ε α : Type} [DecidableEq ε] [DecidableEq α] : DecidableEq (Except ε α) :=
  fun a b =>
    match a, b with
    | .ok x, .ok y =>
      if h : x = y then .isTrue (by rw [h]) else .isFalse (fun hh => h (Except.ok.inj hh))
    | .error x, .error y =>
      if h : x = y then .isTrue (by rw [h]) else .isFalse (fun hh => h (Except.error.inj hh))
    | .ok _, .error _ => .isFalse (fun hh => Except.noConfusion hh)
    | .error _, .ok _ => .isFalse (fun hh => Except.noConfusion hh)

/-- Gregorian leap-year test, as written inline in `_end_of_quarter`
(`y % 4 == 0 and (y % 100 != 0 or y % 400 == 0)`) and as used by
`datetime`. -/
def isLeap (y : Nat) : Bool :=
  y % 4 == 0 && (!(y % 100 == 0) || y % 400 == 0)

/-- Number of days in a month (Python `calendar`/`datetime` month lengths),
used by the `date` constructor validity check. -/
def monthLength (leap : Bool) (m : Nat) : Nat :=
  match m with
  | 1 => 31
  | 2 => if leap then 29 else 28
  | 3 => 31
  | 4 => 30
  | 5 => 31
  | 6 => 30
  | 7 => 31
  | 8 => 31
  | 9 => 30
  | 10 => 31
  | 11 => 30
  | 12 => 31
  | _ => 0

/-- Cumulative days before month `m` within a year (CPython
`_days_before_month`). -/
def daysBeforeMonth (leap : Bool) (m : Nat) : Nat :=
  match m with
  | 1 => 0
  | 2 => 31
  | 3 => if leap then 60 else 59
  | 4 => if leap then 91 else 90
  | 5 => if leap then 121 else 120
  | 6 => if leap then 152 else 151
  | 7 => if leap then 182 else 181
  | 8 => if leap then 213 else 212
  | 9 => if leap then 244 else 243
  | 10 => if leap then 274 else 273
  | 11 => if leap then 305 else 304
  | 12 => if leap then 335 else 334
  | _ => 0

/-- Days before January 1 of year `y` (CPython `_days_before_year`):
`365*(y-1) + (y-1)//4 - (y-1)//100 + (y-1)//400`. -/
def daysBeforeYear (y : Nat) : Nat :=
  365 * (y - 1) + (y - 1) / 4 - (y - 1) / 100 + (y - 1) / 400

/-- Proleptic Gregorian ordinal of a date (CPython `date.toordinal`;
0001-01-01 is day 1).  `a - b` on Python dates is
`timedelta(days = toOrdinal a - toOrdinal b)`. -/
def toOrdinal (d : Date) : Nat :=
  daysBeforeYear d.year + daysBeforeMonth (isLeap d.year) d.month + d.day

/-- The arguments accepted by the Python `date` constructor
(`datetime.MINYEAR = 1`, `datetime.MAXYEAR = 9999`). -/
def DateValid (d : Date) : Prop :=
  1 ≤ d.year ∧ d.year ≤ 9999 ∧ 1 ≤ d.month ∧ d.month ≤ 12 ∧
    1 ≤ d.day ∧ d.day ≤ monthLength (isLeap d.year) d.month

instance (d : Date) : Decidable (DateValid d) := by
  unfold DateValid; infer_instance

/-- Python date comparison (`date.__le__` compares the `(y, m, d)` tuples
lexicographically). -/
def Date.le (a b : Date) : Bool :=
  decide (a.year < b.year) ||
    (decide (a.year = b.year) &&
      (decide (a.month < b.month) ||
        (decide (a.month = b.month) && decide (a.day ≤ b.day))))

/-- The Python `date(y, m, d)` constructor: returns the date, or a
`ValueError` (modelled as `Except.error ()`) when the arguments are out of
range. -/
def mkDate (y m d : Nat) : Except Unit Date :=
  if 1 ≤ y ∧ y ≤ 9999 ∧ 1 ≤ m ∧ m ≤ 12 ∧ 1 ≤ d ∧ d ≤ monthLength (isLeap y) m then
    .ok ⟨y, m, d⟩
  else
    .error ()

/-- Month/day of a 0-based day-of-year index `r`: scan the twelve months
subtracting month lengths (the month/day search inside CPython
`_ord2ymd`). -/
def findMDAux : Nat → Bool → Nat → Nat → Nat × Nat
  | 0, _, m, r => (m, r + 1)
  | fuel + 1, leap, m, r =>
    if r < monthLength leap m ∨ 12 ≤ m then (m, r + 1)
    else findMDAux fuel leap (m + 1) (r - monthLength leap m)

/-- Month and day within a year for a 0-based day-of-year index. -/
def findMD (leap : Bool) (r : Nat) : Nat × Nat :=
  findMDAux 12 leap 1 r

/-- Proleptic Gregorian ordinal to date (CPython `_ord2ymd`, reached via
`date.fromordinal` / `datetime + timedelta`): decompose `k - 1` into
400-year, 100-year, 4-year and 1-year cycles, special-casing the final day
of a 4-year or 400-year cycle (December 31 of a leap year). -/
def fromOrdinal (k : Nat) : Date :=
  let n0 := k - 1
  let n400 := n0 / 146097
  let r400 := n0 % 146097
  let n100 := r400 / 36524
  let r100 := r400 % 36524
  let n4 := r100 / 1461
  let r4 := r100 % 1461
  let n1 := r4 / 365
  let r1 := r4 % 365
  if n1 = 4 ∨ n100 = 4 then
    ⟨400 * n400 + 100 * n100 + 4 * n4 + n1, 12, 31⟩
  else
    let year := 400 * n400 + 100 * n100 + 4 * n4 + n1 + 1
    let md := findMD (isLeap year) r1
    ⟨year, md.1, md.2⟩

/-- Largest valid ordinal (`date.max.toordinal()`, i.e. 9999-12-31). -/
def maxOrdinal : Nat := 3652059

/-! ### Character classes and Python string helpers (ASCII model) -/

/-- Regex `\s` / `str.strip` whitespace (ASCII part). -/
def isSpaceCh (c : Char) : Bool :=
  c = ' ' || c = '\t' || c = '\n' || c = '\r' || c = '\x0b' || c = '\x0c'

/-- Regex `\w` word character (ASCII part), used by `\b` boundaries. -/
def isWordCh (c : Char) : Bool :=
  c.isAlpha || c.isDigit || c = '_'

/-- Python `str.lower` on one character (ASCII case mapping; the source
data is ASCII). -/
def lowerCh (c : Char) : Char :=
  if 'A' ≤ c ∧ c ≤ 'Z' then Char.ofNat (c.toNat + 32) else c

/-- Python `str.lower` (ASCII model). -/
def pyLower (l : List Char) : List Char := l.map lowerCh

/-- Python `str.strip`: drop whitespace from both ends. -/
def pyStrip (l : List Char) : List Char :=
  ((l.dropWhile isSpaceCh).reverse.dropWhile isSpaceCh).reverse

/-- Python substring test `needle in haystack`. -/
def hasSubstr (needle : List Char) : List Char → Bool
  | [] => needle.isEmpty
  | c :: rest => needle.isPrefixOf (c :: rest) || hasSubstr needle rest

/-- Numeric value of a list of ASCII digit characters (most significant
first). -/
def digitsToNat (l : List Char) : Nat :=
  l.foldl (fun acc c => acc * 10 + (c.toNat - 48)) 0

/-- Decimal digit characters of `n`, most significant first; the `fuel`
argument only bounds the recursion (it shrinks by one per emitted digit
while `n` shrinks ten-fold). -/
def digitCharsAux : Nat → Nat → List Char
  | 0, _ => []
  | fuel + 1, n =>
    if n = 0 then []
    else digitCharsAux fuel (n / 10) ++ [Char.ofNat (48 + n % 10)]

/-- Decimal representation of a natural number, as Python `str`. -/
def natDigitChars (n : Nat) : List Char :=
  if n = 0 then ['0'] else digitCharsAux (n + 1) n

/-- Python `str` of an `int`. -/
def pyStrInt (n : Int) : List Char :=
  if n < 0 then '-' :: natDigitChars n.natAbs else natDigitChars n.toNat

/-! ### The three compiled regexes of the source -/

/-- Word boundary `\b` before a word character, given the preceding
character (if any). -/
def boundaryBefore : Option Char → Bool
  | none => true
  | some p => !isWordCh p

/-- Word boundary `\b` after a word character, given the rest of the
input. -/
def boundaryAfter : List Char → Bool
  | [] => true
  | t :: _ => !isWordCh t

/-- Attempt to match `q([1-4])\s*(\d{4})\b` (case-insensitive) at the head
of the input, returning the captured quarter and year. -/
def qTryAt : List Char → Option (Nat × Nat)
  | c :: d :: rest =>
    if (c = 'q' ∨ c = 'Q') ∧ '1' ≤ d ∧ d ≤ '4' then
      match rest.dropWhile isSpaceCh with
      | y1 :: y2 :: y3 :: y4 :: tail =>
        if ([y1, y2, y3, y4].all Char.isDigit) ∧ boundaryAfter tail = true then
          some (d.toNat - 48, digitsToNat [y1, y2, y3, y4])
        else none
      | _ => none
    else none
  | _ => none

/-- Scan of `re.search` for `Q_PAT`: try the pattern at each position,
left to right, tracking the previous character for the leading `\b`. -/
def qSearchFrom : Option Char → List Char → Option (Nat × Nat)
  | _, [] => none
  | prev, c :: rest =>
    match (if boundaryBefore prev then qTryAt (c :: rest) else none) with
    | some r => some r
    | none => qSearchFrom (some c) rest

/-- `Q_PAT.search`: first occurrence of `\bq([1-4])\s*(\d{4})\b`
(case-insensitive) anywhere in the text. -/
def Q_PAT_search (l : List Char) : Option (Nat × Nat) :=
  qSearchFrom none l

/-- `YEAR_PAT.match`: the whole string is `^\s*(\d{4})\s*$`; returns the
captured year. -/
def YEAR_PAT_match (l : List Char) : Option Nat :=
  match l.dropWhile isSpaceCh with
  | a :: b :: c :: d :: rest =>
    if ([a, b, c, d].all Char.isDigit) ∧ rest.all isSpaceCh then
      some (digitsToNat [a, b, c, d])
    else none
  | _ => none

/-- First alternative of `DATE_IN_TEXT_PAT`: `\d{4}-\d{2}-\d{2}` at the
head of the input; returns the matched fragment. -/
def dateAlt1 : List Char → Option (List Char)
  | a :: b :: c :: d :: '-' :: e :: f :: '-' :: g :: h :: _ =>
    if [a, b, c, d, e, f, g, h].all Char.isDigit then
      some [a, b, c, d, '-', e, f, '-', g, h]
    else none
  | _ => none

/-- Second alternative: two digits, a separator (dash or slash), two
digits, a separator, four digits, at the head (the two separators are
independent). -/
def dateAlt2 : List Char → Option (List Char)
  | a :: b :: s1 :: c :: d :: s2 :: e :: f :: g :: h :: _ =>
    if ([a, b, c, d, e, f, g, h].all Char.isDigit) ∧
        (s1 = '-' ∨ s1 = '/') ∧ (s2 = '-' ∨ s2 = '/') then
      some [a, b, s1, c, d, s2, e, f, g, h]
    else none
  | _ => none

/-- Third alternative: `\d{4}/\d{2}/\d{2}` at the head. -/
def dateAlt3 : List Char → Option (List Char)
  | a :: b :: c :: d :: '/' :: e :: f :: '/' :: g :: h :: _ =>
    if [a, b, c, d, e, f, g, h].all Char.isDigit then
      some [a, b, c, d, '/', e, f, '/', g, h]
    else none
  | _ => none

/-- One position of `DATE_IN_TEXT_PAT`: alternatives tried left to
right. -/
def dateTryAt (l : List Char) : Option (List Char) :=
  (dateAlt1 l).orElse fun _ => (dateAlt2 l).orElse fun _ => dateAlt3 l

/-- `DATE_IN_TEXT_PAT.search`: leftmost match of any alternative. -/
def DATE_IN_TEXT_PAT_search : List Char → Option (List Char)
  | [] => none
  | c :: rest =>
    match dateTryAt (c :: rest) with
    | some r => some r
    | none => DATE_IN_TEXT_PAT_search rest

/-! ### `datetime.strptime` on the rigid fragments produced by
`DATE_IN_TEXT_PAT` -/

/-- Value of two ASCII digit characters, when both are digits. -/
def twoDigits (a b : Char) : Option Nat :=
  if a.isDigit ∧ b.isDigit then some ((a.toNat - 48) * 10 + (b.toNat - 48))
  else none

/-- Value of four ASCII digit characters, when all are digits. -/
def fourDigits (a b c d : Char) : Option Nat :=
  if [a, b, c, d].all Char.isDigit then some (digitsToNat [a, b, c, d])
  else none

/-- `datetime.strptime(frag, fmt).date()` wrapped in try/except, as a
function of the parsed components: `strptime` rejects month 0 / day 0 at
the regex stage and out-of-range dates in the `datetime` constructor; both
outcomes coincide with the `mkDate` validity check. -/
def strptimeMk (y m d : Option Nat) : Option Date :=
  match y, m, d with
  | some y, some m, some d => (mkDate y m d).toOption
  | _, _, _ => none

/-- `strptime` with format `%Y-%m-%d` on a fragment (which by construction
of `DATE_IN_TEXT_PAT` has one of the four rigid shapes; on those shapes
full consumption forces the 4-2-2 digit split). -/
def strptimeYMDdash : List Char → Option Date
  | [a, b, c, d, '-', e, f, '-', g, h] =>
    strptimeMk (fourDigits a b c d) (twoDigits e f) (twoDigits g h)
  | _ => none

/-- `strptime` with format `%d-%m-%Y`. -/
def strptimeDMYdash : List Char → Option Date
  | [a, b, '-', c, d, '-', e, f, g, h] =>
    strptimeMk (fourDigits e f g h) (twoDigits c d) (twoDigits a b)
  | _ => none

/-- `strptime` with format `%d/%m/%Y`. -/
def strptimeDMYslash : List Char → Option Date
  | [a, b, '/', c, d, '/', e, f, g, h] =>
    strptimeMk (fourDigits e f g h) (twoDigits c d) (twoDigits a b)
  | _ => none

/-- `strptime` with format `%Y/%m/%d`. -/
def strptimeYMDslash : List Char → Option Date
  | [a, b, c, d, '/', e, f, '/', g, h] =>
    strptimeMk (fourDigits a b c d) (twoDigits e f) (twoDigits g h)
  | _ => none

/-- The loop `for fmt in ("%Y-%m-%d", "%d-%m-%Y", "%d/%m/%Y", "%Y/%m/%d")`
of the source: formats are tried in order, each failure is swallowed. -/
def strptimeChain (frag : List Char) : Option Date :=
  (strptimeYMDdash frag).orElse fun _ =>
    (strptimeDMYdash frag).orElse fun _ =>
      (strptimeDMYslash frag).orElse fun _ => strptimeYMDslash frag

/-! ### Numeric values -/

/-- `re.fullmatch` of `\d+(\.\d+)?` against the stripped text, returning
the integer part and whether a non-zero fractional part is present.  The
`float` value of such a string is integer-part plus fraction; a date only
depends on the floor of the day count, so this pair is what the serial
conversion needs.  (Floats are binary64 in Python; for fractions within
one part in 10^12 of a whole day the microsecond rounding of `timedelta`
is not modelled.) -/
def numericFullmatch (l : List Char) : Option (Int × Bool) :=
  let intpart := l.takeWhile Char.isDigit
  let rest := l.dropWhile Char.isDigit
  if intpart.isEmpty then none
  else
    match rest with
    | [] => some ((digitsToNat intpart : Int), false)
    | '.' :: fr =>
      if (!fr.isEmpty) ∧ fr.all Char.isDigit then
        some ((digitsToNat intpart : Int), fr.any (fun c => c ≠ '0'))
      else none
    | _ => none

/-- The comparison `num > 20000` of the source on an exact numeric value
(integer part plus positive-fraction flag). -/
def numGt20000 : Int × Bool → Bool
  | (i, f) => decide (20000 < i) || (decide (i = 20000) && f)

/-- `_excel_serial_to_date`: `datetime(1899, 12, 30) + timedelta(days=x)`,
then `.date()`.  CPython adds the day count to the ordinal of the base
date and rejects results outside `[1, date.max.toordinal()]` with an
`OverflowError`, which the source catches and turns into `None`.  A
fractional part below one day never changes the resulting calendar day
(the base time is midnight), so only the floor `i` enters. -/
def _excel_serial_to_date : Int × Bool → Option Date
  | (i, _) =>
    let ord : Int := (toOrdinal ⟨1899, 12, 30⟩ : Int) + i
    if 1 ≤ ord ∧ ord ≤ (maxOrdinal : Int) then some (fromOrdinal ord.toNat)
    else none

/-! ### The raw cell values reaching the resolver -/

/-- A raw `Deadline` cell value, by the type tests the source performs:
missing (`pd.isna`), `pd.Timestamp`, `datetime`, `date` (each carrying the
calendar date its `.date()` yields), text, `int`, or a multi-element list
(dirty data; `pd.isna` returns an array for list-likes and its truth test
raises `ValueError`). -/
inductive RawVal where
  | missing : RawVal
  | timestampV : Date → RawVal
  | datetimeV : Date → RawVal
  | dateV : Date → RawVal
  | strV : String → RawVal
  | intV : Int → RawVal
  | listV : RawVal

/-- A raw `Status` cell value: the source only distinguishes strings
(checked with `isinstance(status_val, str)`) from everything else. -/
inductive StatusVal where
  | strV : String → StatusVal
  | nonStr : StatusVal

/-- `_end_of_quarter(y, q)`: quarter-to-month map `{1:3, 2:6, 3:9, 4:12}`,
then the last day of that month via the inline month-length branches of
the source; the final `date(y, month, day)` call is not inside any
try/except, so its `ValueError` (year out of range) propagates. -/
def _end_of_quarter (y q : Nat) : Except Unit Date :=
  let month : Nat := match q with | 1 => 3 | 2 => 6 | 3 => 9 | _ => 12
  let day : Nat :=
    if month ∈ ([1, 3, 5, 7, 8, 10, 12] : List Nat) then 31
    else if month ∈ ([4, 6, 9, 11] : List Nat) then 30
    else if y % 4 = 0 ∧ (y % 100 ≠ 0 ∨ y % 400 = 0) then 29 else 28
  mkDate y month day

/-- The text-processing body of `extract_deadline_as_date`, applied to the
stripped string `s`.  `numIsInstance` is `some (intpart, frac)` when the
original value was an `int`/`float` (the `isinstance` disjunct of the
numeric branch); for text values the numeric branch instead requires the
`re.fullmatch` test on `s`.  `pdParse` is the external `pd.to_datetime`
parser (used both for the matched fragment with `errors="raise"` caught,
and as the final `errors="coerce"` fallback). -/
def extractFromText (pdParse : List Char → Option Date)
    (s : List Char) (numIsInstance : Option (Int × Bool)) :
    Except Unit (Option Date) :=
  if s.isEmpty then .ok none
  else
    match Q_PAT_search s with
    | some (q, y) => Except.map some (_end_of_quarter y q)
    | none =>
      match YEAR_PAT_match s with
      | some y => Except.map some (mkDate y 12 31)
      | none =>
        let fragResult : Option Date :=
          match DATE_IN_TEXT_PAT_search s with
          | some frag =>
            match strptimeChain frag with
            | some d => some d
            | none => pdParse frag
          | none => none
        match fragResult with
        | some d => .ok (some d)
        | none =>
          let num : Option (Int × Bool) :=
            match numIsInstance with
            | some nf => some nf
            | none => numericFullmatch s
          match num with
          | some nf =>
            if numGt20000 nf then
              match _excel_serial_to_date nf with
              | some d => .ok (some d)
              | none => .ok (pdParse s)
            else .ok (pdParse s)
          | none => .ok (pdParse s)

/-- `extract_deadline_as_date(val)`: `None` for missing values, `.date()`
for native timestamp/datetime/date values, and otherwise the text pipeline
on `str(val).strip()`.  A multi-element list raises at the very first
`pd.isna(val)` test (array truth value), modelled as `Except.error`. -/
def extract_deadline_as_date (pdParse : List Char → Option Date) :
    RawVal → Except Unit (Option Date)
  | .missing => .ok none
  | .timestampV d => .ok (some d)
  | .datetimeV d => .ok (some d)
  | .dateV d => .ok (some d)
  | .listV => .error ()
  | .strV s => extractFromText pdParse (pyStrip s.toList) none
  | .intV n => extractFromText pdParse (pyStrip (pyStrInt n)) (some (n, false))

/-- The lowercase needle of the status override. -/
def inForceChars : List Char := "in force".toList

/-- The status override test of the source:
`isinstance(status_val, str) and "in force" in status_val.lower()`. -/
def statusInForce : StatusVal → Bool
  | .strV s => hasSubstr inForceChars (pyLower s.toList)
  | .nonStr => false

/-- `categorize_deadline(deadline_val, status_val)` with the evaluation
date `TODAY` as an explicit parameter: status override first, then the
unknown-date default, then the `<= TODAY` / `<= 365 days` buckets.  The
call to `extract_deadline_as_date` is not protected, so its exception
propagates. -/
def categorize_deadline (pdParse : List Char → Option Date)
    (deadline_val : RawVal) (status_val : StatusVal) (today : Date) :
    Except Unit String :=
  if statusInForce status_val then
    .ok "In force"
  else
    match extract_deadline_as_date pdParse deadline_val with
    | .error e => .error e
    | .ok none => .ok "Due > 1 year"
    | .ok (some d) =>
      if Date.le d today then .ok "In force"
      else if (toOrdinal d : Int) - (toOrdinal today : Int) ≤ 365 then
        .ok "Due < 1 year"
      else .ok "Due > 1 year"

/-- A `pd.to_datetime` behaviour used to instantiate witnesses: the parser
that recognises nothing. -/
def pdNone : List Char → Option Date := fun _ => none

/-- The last calendar day of quarter `q` of year `y`, spelled out as in
the specification text (Q1 is March 31, Q2 is June 30, Q3 is
September 30, Q4 is December 31). -/
def specEndOfQuarter (y q : Nat) : Date :=
  match q with
  | 1 => ⟨y, 3, 31⟩
  | 2 => ⟨y, 6, 30⟩
  | 3 => ⟨y, 9, 30⟩
  | _ => ⟨y, 12, 31⟩

/-! ### Calendar arithmetic lemmas -/

theorem isLeap_iff (y : Nat) :
    isLeap y = true ↔ (y % 4 = 0 ∧ (y % 100 ≠ 0 ∨ y % 400 = 0)) := by
  unfold isLeap
  simp [Bool.and_eq_true, Bool.or_eq_true]

theorem daysBeforeMonth_add_monthLength :
    ∀ leap : Bool, ∀ m1, m1 < 13 → ∀ m2, m2 < 13 → 1 ≤ m1 → m1 < m2 →
      daysBeforeMonth leap m1 + monthLength leap m1 ≤ daysBeforeMonth leap m2 := by
  decide

theorem daysBeforeMonth_monthLength_le :
    ∀ leap : Bool, ∀ m, m < 13 → 1 ≤ m →
      daysBeforeMonth leap m + monthLength leap m ≤ (if leap then 366 else 365) := by
  decide

/-- Stepping the three divisions of `daysBeforeYear` by one year: each
quotient grows exactly when the divisor divides the new value. -/
theorem div_step_facts (y : Nat) (h : 1 ≤ y) :
    ((y % 4 = 0 → y / 4 = (y - 1) / 4 + 1) ∧ (y % 4 ≠ 0 → y / 4 = (y - 1) / 4)) ∧
    ((y % 100 = 0 → y / 100 = (y - 1) / 100 + 1) ∧ (y % 100 ≠ 0 → y / 100 = (y - 1) / 100)) ∧
    ((y % 400 = 0 → y / 400 = (y - 1) / 400 + 1) ∧ (y % 400 ≠ 0 → y / 400 = (y - 1) / 400)) := by
  refine ⟨⟨?_, ?_⟩, ⟨?_, ?_⟩, ⟨?_, ?_⟩⟩ <;> omega

theorem daysBeforeYear_succ_leap (y : Nat) (h : 1 ≤ y) (hL : isLeap y = true) :
    daysBeforeYear (y + 1) = daysBeforeYear y + 366 := by
  obtain ⟨h4, hor⟩ := (isLeap_iff y).mp hL
  unfold daysBeforeYear
  simp only [Nat.add_sub_cancel]
  obtain ⟨e4, e100, e400⟩ := div_step_facts y h
  have d2 : y % 400 = 0 → y % 100 = 0 := by omega
  rcases hor with h100 | h400
  · have := e4.1 h4
    have := e100.2 h100
    have := e400.2 (fun hc => h100 (d2 hc))
    omega
  · have := e4.1 h4
    have := e100.1 (d2 h400)
    have := e400.1 h400
    omega

theorem daysBeforeYear_succ_nonleap (y : Nat) (h : 1 ≤ y) (hL : isLeap y = false) :
    daysBeforeYear (y + 1) = daysBeforeYear y + 365 := by
  have hn : ¬ (y % 4 = 0 ∧ (y % 100 ≠ 0 ∨ y % 400 = 0)) := by
    intro hc; rw [← isLeap_iff, hL] at hc; exact Bool.false_ne_true hc
  unfold daysBeforeYear
  simp only [Nat.add_sub_cancel]
  obtain ⟨e4, e100, e400⟩ := div_step_facts y h
  have d1 : y % 100 = 0 → y % 4 = 0 := by omega
  have d2 : y % 400 = 0 → y % 100 = 0 := by omega
  by_cases h4 : y % 4 = 0
  · have h100 : y % 100 = 0 := by tauto
    have h400 : y % 400 ≠ 0 := by tauto
    have := e4.1 h4
    have := e100.1 h100
    have := e400.2 h400
    omega
  · have h100 : y % 100 ≠ 0 := fun hc => h4 (d1 hc)
    have h400 : y % 400 ≠ 0 := fun hc => h4 (d1 (d2 hc))
    have := e4.2 h4
    have := e100.2 h100
    have := e400.2 h400
    omega

theorem daysBeforeYear_succ (y : Nat) (h : 1 ≤ y) :
    daysBeforeYear (y + 1) =
      daysBeforeYear y + (if isLeap y then 366 else 365) := by
  by_cases hL : isLeap y = true
  · rw [if_pos hL]; exact daysBeforeYear_succ_leap y h hL
  · rw [Bool.not_eq_true] at hL
    rw [hL]; exact daysBeforeYear_succ_nonleap y h hL

theorem daysBeforeYear_mono {y1 y2 : Nat} (h : y1 ≤ y2) :
    daysBeforeYear y1 ≤ daysBeforeYear y2 := by
  unfold daysBeforeYear
  have h4 : (y1 - 1) / 4 ≤ (y2 - 1) / 4 := Nat.div_le_div_right (by omega)
  have h100 : (y1 - 1) / 100 ≤ (y2 - 1) / 100 := Nat.div_le_div_right (by omega)
  have h400 : (y1 - 1) / 400 ≤ (y2 - 1) / 400 := Nat.div_le_div_right (by omega)
  omega

/-- The day-of-year part of the ordinal is between 1 and the year
length. -/
theorem dayOrdinal_bounds (d : Date) (hd : DateValid d) :
    1 ≤ daysBeforeMonth (isLeap d.year) d.month + d.day ∧
      daysBeforeMonth (isLeap d.year) d.month + d.day ≤
        (if isLeap d.year then 366 else 365) := by
  obtain ⟨-, -, hm1, hm2, hd1, hd2⟩ := hd
  constructor
  · omega
  · calc daysBeforeMonth (isLeap d.year) d.month + d.day
        ≤ daysBeforeMonth (isLeap d.year) d.month + monthLength (isLeap d.year) d.month := by omega
      _ ≤ _ := daysBeforeMonth_monthLength_le (isLeap d.year) d.month (by omega) hm1

set_option maxRecDepth 4000 in
/-- Correctness of the month/day scan for every 0-based day-of-year index
below 365 (the only values the normal branch of `fromOrdinal` feeds it):
the result is a valid month/day whose cumulative position recovers the
index. -/
theorem findMD_spec :
    ∀ leap : Bool, ∀ r, r < 365 →
      1 ≤ (findMD leap r).1 ∧ (findMD leap r).1 ≤ 12 ∧
        1 ≤ (findMD leap r).2 ∧
        (findMD leap r).2 ≤ monthLength leap (findMD leap r).1 ∧
        daysBeforeMonth leap (findMD leap r).1 + (findMD leap r).2 = r + 1 := by
  decide

/-- Lexicographically strictly smaller valid dates have strictly smaller
ordinals. -/
theorem toOrdinal_strict (a b : Date) (ha : DateValid a) (hb : DateValid b)
    (h : a.year < b.year ∨ (a.year = b.year ∧ a.month < b.month) ∨
         (a.year = b.year ∧ a.month = b.month ∧ a.day < b.day)) :
    toOrdinal a < toOrdinal b := by
  obtain ⟨hay, hay2, ham1, ham2, had1, had2⟩ := ha
  obtain ⟨hby, hby2, hbm1, hbm2, hbd1, hbd2⟩ := hb
  unfold toOrdinal
  rcases h with hy | ⟨hy, hm⟩ | ⟨hy, hm, hd⟩
  · have h1 : daysBeforeMonth (isLeap a.year) a.month + a.day ≤
        (if isLeap a.year then 366 else 365) := (dayOrdinal_bounds a
        ⟨hay, hay2, ham1, ham2, had1, had2⟩).2
    have h2 : daysBeforeYear a.year + (if isLeap a.year then 366 else 365) =
        daysBeforeYear (a.year + 1) := (daysBeforeYear_succ a.year hay).symm
    have h3 : daysBeforeYear (a.year + 1) ≤ daysBeforeYear b.year :=
      daysBeforeYear_mono hy
    have h4 : 1 ≤ daysBeforeMonth (isLeap b.year) b.month + b.day := by omega
    omega
  · rw [hy]
    have h1 : daysBeforeMonth (isLeap b.year) a.month + a.day ≤
        daysBeforeMonth (isLeap b.year) a.month + monthLength (isLeap b.year) a.month := by
      rw [hy] at had2; omega
    have h2 : daysBeforeMonth (isLeap b.year) a.month + monthLength (isLeap b.year) a.month ≤
        daysBeforeMonth (isLeap b.year) b.month :=
      daysBeforeMonth_add_monthLength (isLeap b.year) a.month (by omega) b.month (by omega)
        ham1 hm
    omega
  · rw [hy, hm]
    omega

/-- Python date comparison agrees with ordinal comparison on valid dates:
the bridge between the `d <= TODAY` branch and the `(d - TODAY).days`
branch of `categorize_deadline`. -/
theorem Date.le_iff_toOrdinal (a b : Date) (ha : DateValid a) (hb : DateValid b) :
    Date.le a b = true ↔ toOrdinal a ≤ toOrdinal b := by
  constructor
  · intro h
    unfold Date.le at h
    simp only [Bool.or_eq_true, Bool.and_eq_true, decide_eq_true_eq] at h
    rcases h with hy | ⟨hy, hm | ⟨hm, hd⟩⟩
    · exact Nat.le_of_lt (toOrdinal_strict a b ha hb (Or.inl hy))
    · exact Nat.le_of_lt (toOrdinal_strict a b ha hb (Or.inr (Or.inl ⟨hy, hm⟩)))
    · rcases Nat.lt_or_ge a.day b.day with hlt | hge
      · exact Nat.le_of_lt (toOrdinal_strict a b ha hb (Or.inr (Or.inr ⟨hy, hm, hlt⟩)))
      · have : a.day = b.day := by omega
        have : a = b := by
          cases a; cases b; simp_all
        rw [this]
  · intro h
    by_contra hc
    unfold Date.le at hc
    simp only [Bool.or_eq_true, Bool.and_eq_true, decide_eq_true_eq, not_or, not_and,
      Bool.not_eq_true] at hc
    have hlt : b.year < a.year ∨ (b.year = a.year ∧ b.month < a.month) ∨
        (b.year = a.year ∧ b.month = a.month ∧ b.day < a.day) := by
      obtain ⟨h1, h2⟩ := hc
      by_cases hy : a.year = b.year
      · have h3 := h2 hy
        omega
      · omega
    have := toOrdinal_strict b a hb ha hlt
    omega

/-- `DateValid` on a literal constructor, unfolded. -/
theorem dateValid_mk (y m d : Nat) :
    DateValid ⟨y, m, d⟩ ↔
      (1 ≤ y ∧ y ≤ 9999 ∧ 1 ≤ m ∧ m ≤ 12 ∧ 1 ≤ d ∧ d ≤ monthLength (isLeap y) m) :=
  Iff.rfl

/-- `toOrdinal` on a literal constructor, unfolded. -/
theorem toOrdinal_mk (y m d : Nat) :
    toOrdinal ⟨y, m, d⟩ = daysBeforeYear y + daysBeforeMonth (isLeap y) m + d :=
  rfl

/-- Special branch of `_ord2ymd`: the last day of a 4-year or 400-year
cycle is December 31 of the preceding (leap) year, and its ordinal
recovers `k`. -/
theorem ord2ymd_special (k a b c e r1 : Nat)
    (hdec : k - 1 = 146097 * a + 36524 * b + 1461 * c + 365 * e + r1)
    (hk1 : 1 ≤ k) (hk2 : k ≤ 3652059)
    (hb : 36524 * b + 1461 * c + 365 * e + r1 < 146097)
    (hc : 1461 * c + 365 * e + r1 < 36524)
    (he : 365 * e + r1 < 1461)
    (hr1 : r1 < 365)
    (hsp : e = 4 ∨ b = 4) :
    DateValid ⟨400 * a + 100 * b + 4 * c + e, 12, 31⟩ ∧
      toOrdinal ⟨400 * a + 100 * b + 4 * c + e, 12, 31⟩ = k := by
  have hr10 : r1 = 0 := by omega
  subst hr10
  rw [dateValid_mk, toOrdinal_mk]
  rcases hsp with rfl | rfl
  · -- e = 4 : end of a 4-year cycle
    have hb3 : b ≤ 3 := by omega
    have hc23 : c ≤ 23 := by omega
    have hm4 : (400 * a + 100 * b + 4 * c + 4) % 4 = 0 := by omega
    have hm100 : (400 * a + 100 * b + 4 * c + 4) % 100 = 4 * c + 4 := by omega
    have hleap : isLeap (400 * a + 100 * b + 4 * c + 4) = true := by
      rw [isLeap_iff]; omega
    have hd4 : (400 * a + 100 * b + 4 * c + 4 - 1) / 4 = 100 * a + 25 * b + c := by omega
    have hd100 : (400 * a + 100 * b + 4 * c + 4 - 1) / 100 = 4 * a + b := by omega
    have hd400 : (400 * a + 100 * b + 4 * c + 4 - 1) / 400 = a := by omega
    refine ⟨⟨by omega, by omega, by norm_num, by norm_num, by norm_num, ?_⟩, ?_⟩
    · rw [hleap]; decide
    · rw [hleap]
      show daysBeforeYear (400 * a + 100 * b + 4 * c + 4) + 335 + 31 = k
      unfold daysBeforeYear
      rw [hd4, hd100, hd400]
      omega
  · -- b = 4 : end of a 400-year cycle
    have hc0 : c = 0 := by omega
    have he0 : e = 0 := by omega
    subst hc0; subst he0
    have hm400 : (400 * a + 100 * 4 + 4 * 0 + 0) % 400 = 0 := by omega
    have hleap : isLeap (400 * a + 100 * 4 + 4 * 0 + 0) = true := by
      rw [isLeap_iff]; omega
    have hd4 : (400 * a + 100 * 4 + 4 * 0 + 0 - 1) / 4 = 100 * a + 99 := by omega
    have hd100 : (400 * a + 100 * 4 + 4 * 0 + 0 - 1) / 100 = 4 * a + 3 := by omega
    have hd400 : (400 * a + 100 * 4 + 4 * 0 + 0 - 1) / 400 = a := by omega
    refine ⟨⟨by omega, by omega, by norm_num, by norm_num, by norm_num, ?_⟩, ?_⟩
    · rw [hleap]; decide
    · rw [hleap]
      show daysBeforeYear (400 * a + 100 * 4 + 4 * 0 + 0) + 335 + 31 = k
      unfold daysBeforeYear
      rw [hd4, hd100, hd400]
      omega

/-- Normal branch of `_ord2ymd`: the year/month/day assembled from the
cycle decomposition is valid and its ordinal recovers `k`. -/
theorem ord2ymd_normal (k a b c e r1 : Nat)
    (hdec : k - 1 = 146097 * a + 36524 * b + 1461 * c + 365 * e + r1)
    (hk1 : 1 ≤ k) (hk2 : k ≤ 3652059)
    (hb : 36524 * b + 1461 * c + 365 * e + r1 < 146097)
    (hc : 1461 * c + 365 * e + r1 < 36524)
    (he : 365 * e + r1 < 1461)
    (hr1 : r1 < 365)
    (hsp : ¬ (e = 4 ∨ b = 4)) :
    DateValid ⟨400 * a + 100 * b + 4 * c + e + 1,
        (findMD (isLeap (400 * a + 100 * b + 4 * c + e + 1)) r1).1,
        (findMD (isLeap (400 * a + 100 * b + 4 * c + e + 1)) r1).2⟩ ∧
      toOrdinal ⟨400 * a + 100 * b + 4 * c + e + 1,
        (findMD (isLeap (400 * a + 100 * b + 4 * c + e + 1)) r1).1,
        (findMD (isLeap (400 * a + 100 * b + 4 * c + e + 1)) r1).2⟩ = k := by
  push_neg at hsp
  obtain ⟨he4, hb4⟩ := hsp
  have hbb : b ≤ 3 := by omega
  have hcc : c ≤ 24 := by omega
  have hee : e ≤ 3 := by omega
  have hd4 : (400 * a + 100 * b + 4 * c + e + 1 - 1) / 4 = 100 * a + 25 * b + c := by
    omega
  have hd100 : (400 * a + 100 * b + 4 * c + e + 1 - 1) / 100 = 4 * a + b := by omega
  have hd400 : (400 * a + 100 * b + 4 * c + e + 1 - 1) / 400 = a := by omega
  obtain ⟨g1, g2, g3, g4, g5⟩ :=
    findMD_spec (isLeap (400 * a + 100 * b + 4 * c + e + 1)) r1 hr1
  rw [dateValid_mk, toOrdinal_mk]
  refine ⟨⟨by omega, by omega, g1, g2, g3, g4⟩, ?_⟩
  unfold daysBeforeYear
  rw [hd4, hd100, hd400]
  omega

/-- Round trip: `fromOrdinal` produces a valid date whose `toOrdinal` is
the given ordinal, for every ordinal in the Python `date` range. -/
theorem fromOrdinal_spec (k : Nat) (hk1 : 1 ≤ k) (hk2 : k ≤ maxOrdinal) :
    DateValid (fromOrdinal k) ∧ toOrdinal (fromOrdinal k) = k := by
  have hmax : k ≤ 3652059 := hk2
  have q1 := Nat.div_add_mod (k - 1) 146097
  have q2 : (k - 1) % 146097 < 146097 := Nat.mod_lt _ (by norm_num)
  have q3 := Nat.div_add_mod ((k - 1) % 146097) 36524
  have q4 : (k - 1) % 146097 % 36524 < 36524 := Nat.mod_lt _ (by norm_num)
  have q5 := Nat.div_add_mod ((k - 1) % 146097 % 36524) 1461
  have q6 : (k - 1) % 146097 % 36524 % 1461 < 1461 := Nat.mod_lt _ (by norm_num)
  have q7 := Nat.div_add_mod ((k - 1) % 146097 % 36524 % 1461) 365
  have q8 : (k - 1) % 146097 % 36524 % 1461 % 365 < 365 := Nat.mod_lt _ (by norm_num)
  simp only [fromOrdinal]
  by_cases hsp : (k - 1) % 146097 % 36524 % 1461 / 365 = 4 ∨ (k - 1) % 146097 / 36524 = 4
  · rw [if_pos hsp]
    exact ord2ymd_special k _ _ _ _ _ (by omega) hk1 hmax (by omega) (by omega) (by omega)
      q8 hsp
  · rw [if_neg hsp]
    exact ord2ymd_normal k _ _ _ _ _ (by omega) hk1 hmax (by omega) (by omega) (by omega)
      q8 hsp

/-! ### Facts about digit characters and decimal strings -/

theorem isDigit_toNat (c : Char) (h : c.isDigit = true) :
    48 ≤ c.toNat ∧ c.toNat ≤ 57 := by
  simp only [Char.isDigit, Bool.and_eq_true, decide_eq_true_eq] at h
  exact h

theorem isDigit_not_space (c : Char) (h : c.isDigit = true) :
    isSpaceCh c = false := by
  unfold isSpaceCh
  simp only [Bool.or_eq_false_iff, decide_eq_false_iff_not]
  refine ⟨⟨⟨⟨⟨?_, ?_⟩, ?_⟩, ?_⟩, ?_⟩, ?_⟩ <;>
    first
    | (intro hc; subst hc; exact absurd h (by decide))

theorem isDigit_ne (c : Char) (h : c.isDigit = true) :
    c ≠ 'q' ∧ c ≠ 'Q' ∧ c ≠ '-' ∧ c ≠ '/' ∧ isWordCh c = true := by
  refine ⟨?_, ?_, ?_, ?_, ?_⟩
  · intro hc; subst hc; exact absurd h (by decide)
  · intro hc; subst hc; exact absurd h (by decide)
  · intro hc; subst hc; exact absurd h (by decide)
  · intro hc; subst hc; exact absurd h (by decide)
  · unfold isWordCh; rw [h]; simp

theorem ofNat_digit_facts :
    ∀ d, d < 10 →
      (Char.ofNat (48 + d)).isDigit = true ∧ (Char.ofNat (48 + d)).toNat = 48 + d := by
  decide

theorem digitsToNat_append (xs : List Char) (c : Char) :
    digitsToNat (xs ++ [c]) = digitsToNat xs * 10 + (c.toNat - 48) := by
  unfold digitsToNat
  rw [List.foldl_append]
  rfl

/-- The numeric value of four digit characters is below 10000. -/
theorem digitsToNat_four_le (a b c d : Char)
    (ha : a.isDigit = true) (hb : b.isDigit = true)
    (hc : c.isDigit = true) (hd : d.isDigit = true) :
    digitsToNat [a, b, c, d] ≤ 9999 := by
  have h1 := isDigit_toNat a ha
  have h2 := isDigit_toNat b hb
  have h3 := isDigit_toNat c hc
  have h4 := isDigit_toNat d hd
  show ((((0 * 10 + (a.toNat - 48)) * 10 + (b.toNat - 48)) * 10 + (c.toNat - 48)) * 10 +
    (d.toNat - 48)) ≤ 9999
  omega

/-- Everything needed about the decimal digit expansion: all characters
are digits, the value round-trips, and the length is governed by powers
of ten. -/
theorem digitCharsAux_spec :
    ∀ fuel n, n < 10 ^ fuel →
      (∀ c ∈ digitCharsAux fuel n, c.isDigit = true) ∧
        digitsToNat (digitCharsAux fuel n) = n ∧
        (∀ k, n < 10 ^ k → (digitCharsAux fuel n).length ≤ k) ∧
        (∀ k, 10 ^ k ≤ n → k < (digitCharsAux fuel n).length) := by
  intro fuel
  induction fuel with
  | zero =>
    intro n hn
    have hn0 : n = 0 := by simpa using hn
    subst hn0
    refine ⟨by simp [digitCharsAux], by simp [digitCharsAux]; rfl, ?_, ?_⟩
    · intro k _; simp [digitCharsAux]
    · intro k hk
      have : 0 < 10 ^ k := pow_pos (by norm_num) k
      omega
  | succ fuel ih =>
    intro n hn
    by_cases h0 : n = 0
    · subst h0
      refine ⟨by simp [digitCharsAux], by simp [digitCharsAux]; rfl, ?_, ?_⟩
      · intro k _; simp [digitCharsAux]
      · intro k hk
        have : 0 < 10 ^ k := pow_pos (by norm_num) k
        omega
    · have hdiv : n / 10 < 10 ^ fuel := by
        rw [Nat.div_lt_iff_lt_mul (by norm_num)]
        rw [pow_succ] at hn
        exact hn
      obtain ⟨ihd, ihv, ihle, ihge⟩ := ih (n / 10) hdiv
      have hm : n % 10 < 10 := Nat.mod_lt _ (by norm_num)
      obtain ⟨hdig, hval⟩ := ofNat_digit_facts (n % 10) hm
      have hunf : digitCharsAux (fuel + 1) n =
          digitCharsAux fuel (n / 10) ++ [Char.ofNat (48 + n % 10)] := by
        rw [digitCharsAux, if_neg h0]
      rw [hunf]
      refine ⟨?_, ?_, ?_, ?_⟩
      · intro ch hch
        rcases List.mem_append.mp hch with hin | hin
        · exact ihd ch hin
        · rw [List.mem_singleton] at hin
          subst hin
          exact hdig
      · rw [digitsToNat_append, ihv, hval]
        omega
      · intro k hk
        have hkpos : k ≠ 0 := by
          rintro rfl
          simp at hk
          omega
        obtain ⟨k', rfl⟩ : ∃ k', k = k' + 1 := ⟨k - 1, by omega⟩
        have : n / 10 < 10 ^ k' := by
          rw [Nat.div_lt_iff_lt_mul (by norm_num)]
          rw [pow_succ] at hk
          exact hk
        have := ihle k' this
        simp only [List.length_append, List.length_singleton]
        omega
      · intro k hk
        match k with
        | 0 =>
          simp only [List.length_append, List.length_singleton]
          omega
        | k + 1 =>
          have : 10 ^ k ≤ n / 10 := by
            rw [Nat.le_div_iff_mul_le (by norm_num)]
            rw [pow_succ] at hk
            exact hk
          have := ihge k this
          simp only [List.length_append, List.length_singleton]
          omega

/-- The decimal expansion of a positive natural number. -/
theorem natDigitChars_spec (n : Nat) (h : 1 ≤ n) :
    (∀ c ∈ natDigitChars n, c.isDigit = true) ∧
      digitsToNat (natDigitChars n) = n ∧
      (∀ k, n < 10 ^ k → (natDigitChars n).length ≤ k) ∧
      (∀ k, 10 ^ k ≤ n → k < (natDigitChars n).length) := by
  unfold natDigitChars
  rw [if_neg (by omega)]
  refine digitCharsAux_spec (n + 1) n ?_
  calc n < 10 ^ n := Nat.lt_pow_self (by norm_num) n
    _ ≤ 10 ^ (n + 1) := Nat.pow_le_pow_right (by norm_num) (by omega)

/-! ### Stripping digit strings -/

theorem dropWhile_no_space (l : List Char) (h : ∀ c ∈ l, isSpaceCh c = false) :
    l.dropWhile isSpaceCh = l := by
  cases l with
  | nil => rfl
  | cons c t =>
    rw [List.dropWhile_cons, if_neg]
    rw [h c (by simp)]
    simp

theorem pyStrip_no_space (l : List Char) (h : ∀ c ∈ l, isSpaceCh c = false) :
    pyStrip l = l := by
  unfold pyStrip
  rw [dropWhile_no_space l h,
    dropWhile_no_space l.reverse (fun c hc => h c (List.mem_reverse.mp hc)),
    List.reverse_reverse]

/-! ### Behaviour of the patterns on all-digit strings -/

theorem qTryAt_none : ∀ l : List Char, (∀ c ∈ l, c.isDigit = true) → qTryAt l = none
  | [], _ => rfl
  | [_], _ => rfl
  | c :: d :: rest, h => by
    show (if (c = 'q' ∨ c = 'Q') ∧ '1' ≤ d ∧ d ≤ '4' then
        match rest.dropWhile isSpaceCh with
        | y1 :: y2 :: y3 :: y4 :: tail =>
          if ([y1, y2, y3, y4].all Char.isDigit) ∧ boundaryAfter tail = true then
            some (d.toNat - 48, digitsToNat [y1, y2, y3, y4])
          else none
        | _ => none
      else none) = none
    rw [if_neg]
    rintro ⟨hq, -⟩
    have hne := isDigit_ne c (h c (by simp))
    rcases hq with hq | hq
    · exact hne.1 hq
    · exact hne.2.1 hq

theorem qSearchFrom_none :
    ∀ (prev : Option Char) (l : List Char), (∀ c ∈ l, c.isDigit = true) →
      qSearchFrom prev l = none
  | _, [], _ => rfl
  | prev, c :: rest, h => by
    have h1 : qTryAt (c :: rest) = none := qTryAt_none _ h
    have h2 : qSearchFrom (some c) rest = none :=
      qSearchFrom_none (some c) rest (fun x hx => h x (List.mem_cons_of_mem _ hx))
    show (match (if boundaryBefore prev then qTryAt (c :: rest) else none) with
      | some r => some r
      | none => qSearchFrom (some c) rest) = none
    by_cases hb : boundaryBefore prev = true
    · rw [if_pos hb, h1]
      exact h2
    · rw [if_neg hb]
      exact h2

theorem Q_PAT_search_digits (l : List Char) (h : ∀ c ∈ l, c.isDigit = true) :
    Q_PAT_search l = none :=
  qSearchFrom_none none l h

theorem dateAlt1_digits (l : List Char) (h : ∀ c ∈ l, c.isDigit = true) :
    dateAlt1 l = none := by
  unfold dateAlt1
  split
  · next a b c d e f g i rest =>
    exfalso
    exact (isDigit_ne '-' (h '-' (by simp))).2.2.1 rfl
  · rfl

theorem dateAlt2_digits (l : List Char) (h : ∀ c ∈ l, c.isDigit = true) :
    dateAlt2 l = none := by
  unfold dateAlt2
  split
  · next a b s1 c d s2 e f g i rest =>
    rw [if_neg]
    rintro ⟨-, hs1, -⟩
    have hne := isDigit_ne s1 (h s1 (by simp))
    rcases hs1 with hs1 | hs1
    · exact hne.2.2.1 hs1
    · exact hne.2.2.2.1 hs1
  · rfl

theorem dateAlt3_digits (l : List Char) (h : ∀ c ∈ l, c.isDigit = true) :
    dateAlt3 l = none := by
  unfold dateAlt3
  split
  · next a b c d e f g i rest =>
    exfalso
    exact (isDigit_ne '/' (h '/' (by simp))).2.2.2.1 rfl
  · rfl

theorem dateTryAt_digits (l : List Char) (h : ∀ c ∈ l, c.isDigit = true) :
    dateTryAt l = none := by
  unfold dateTryAt
  simp only [dateAlt1_digits l h, dateAlt2_digits l h, dateAlt3_digits l h]
  rfl

theorem DATE_IN_TEXT_PAT_search_digits :
    ∀ l : List Char, (∀ c ∈ l, c.isDigit = true) → DATE_IN_TEXT_PAT_search l = none
  | [], _ => rfl
  | c :: rest, h => by
    unfold DATE_IN_TEXT_PAT_search
    rw [dateTryAt_digits _ h]
    exact DATE_IN_TEXT_PAT_search_digits rest
      (fun x hx => h x (List.mem_cons_of_mem _ hx))

theorem YEAR_PAT_match_four (a b c d : Char)
    (h : ∀ x ∈ [a, b, c, d], x.isDigit = true) :
    YEAR_PAT_match [a, b, c, d] = some (digitsToNat [a, b, c, d]) := by
  unfold YEAR_PAT_match
  rw [dropWhile_no_space _ (fun x hx => isDigit_not_space x (h x hx))]
  dsimp only
  rw [if_pos]
  constructor
  · rw [List.all_eq_true]
    intro x hx
    exact h x hx
  · rfl

theorem YEAR_PAT_match_long (a b c d e : Char) (rest : List Char)
    (h : ∀ x ∈ a :: b :: c :: d :: e :: rest, x.isDigit = true) :
    YEAR_PAT_match (a :: b :: c :: d :: e :: rest) = none := by
  unfold YEAR_PAT_match
  rw [dropWhile_no_space _ (fun x hx => isDigit_not_space x (h x hx))]
  dsimp only
  rw [if_neg]
  rintro ⟨-, hall⟩
  rw [List.all_eq_true] at hall
  have h1 := hall e (by simp)
  have h2 := isDigit_not_space e (h e (by simp))
  rw [h1] at h2
  exact Bool.true_eq_false.mp h2

/-! ### Bounds on the values captured by `Q_PAT` -/

theorem qTryAt_bounds :
    ∀ (l : List Char) (q y : Nat),
      qTryAt l = some (q, y) → 1 ≤ q ∧ q ≤ 4 ∧ y ≤ 9999
  | [], _, _ => fun h => Option.noConfusion h
  | [_], _, _ => fun h => Option.noConfusion h
  | c :: d :: rest, q, y => by
    intro h
    simp only [qTryAt] at h
    split_ifs at h with h1
    · split at h
      · next a1 a2 a3 a4 tl heq =>
        split_ifs at h with h2
        · rw [Option.some.injEq, Prod.mk.injEq] at h
          obtain ⟨hq, hy⟩ := h
          obtain ⟨-, hd1, hd2⟩ := h1
          have hdn : 49 ≤ d.toNat ∧ d.toNat ≤ 52 := ⟨hd1, hd2⟩
          obtain ⟨hall, -⟩ := h2
          rw [List.all_eq_true] at hall
          have hle := digitsToNat_four_le a1 a2 a3 a4 (hall a1 (by simp))
            (hall a2 (by simp)) (hall a3 (by simp)) (hall a4 (by simp))
          omega
      · exact Option.noConfusion h

theorem qSearchFrom_bounds :
    ∀ (prev : Option Char) (l : List Char) (q y : Nat),
      qSearchFrom prev l = some (q, y) → 1 ≤ q ∧ q ≤ 4 ∧ y ≤ 9999
  | _, [], _, _ => fun h => Option.noConfusion h
  | prev, c :: rest, q, y => by
    intro h
    simp only [qSearchFrom] at h
    split at h
    · next r heq =>
      rw [Option.some.injEq] at h
      subst h
      split_ifs at heq with hb
      exact qTryAt_bounds (c :: rest) q y heq
    · exact qSearchFrom_bounds (some c) rest q y h

theorem Q_PAT_search_bounds (l : List Char) (q y : Nat)
    (h : Q_PAT_search l = some (q, y)) : 1 ≤ q ∧ q ≤ 4 ∧ y ≤ 9999 :=
  qSearchFrom_bounds none l q y h

/-! ### Evaluating the source helpers on in-range arguments -/

/-- For a representable year, `_end_of_quarter` produces exactly the last
calendar day of the quarter as the specification spells it out. -/
theorem end_of_quarter_eval (y q : Nat) (hy1 : 1 ≤ y) (hy2 : y ≤ 9999)
    (hq1 : 1 ≤ q) (hq2 : q ≤ 4) :
    _end_of_quarter y q = .ok (specEndOfQuarter y q) := by
  have hml : ∀ m, m ∈ ([3, 6, 9, 12] : List Nat) →
      monthLength (isLeap y) m = if m = 6 ∨ m = 9 then 30 else 31 := by
    intro m hm
    fin_cases hm <;> cases isLeap y <;> rfl
  interval_cases q
  · show mkDate y 3 31 = .ok ⟨y, 3, 31⟩
    unfold mkDate
    rw [if_pos ⟨hy1, hy2, by norm_num, by norm_num, by norm_num,
      by rw [hml 3 (by norm_num)]; norm_num⟩]
  · show mkDate y 6 30 = .ok ⟨y, 6, 30⟩
    unfold mkDate
    rw [if_pos ⟨hy1, hy2, by norm_num, by norm_num, by norm_num,
      by rw [hml 6 (by norm_num)]; norm_num⟩]
  · show mkDate y 9 30 = .ok ⟨y, 9, 30⟩
    unfold mkDate
    rw [if_pos ⟨hy1, hy2, by norm_num, by norm_num, by norm_num,
      by rw [hml 9 (by norm_num)]; norm_num⟩]
  · show mkDate y 12 31 = .ok ⟨y, 12, 31⟩
    unfold mkDate
    rw [if_pos ⟨hy1, hy2, by norm_num, by norm_num, by norm_num,
      by rw [hml 12 (by norm_num)]; norm_num⟩]

/-- `mkDate y 12 31` succeeds for every representable year (used by the
bare-year rule). -/
theorem mkDate_dec31 (y : Nat) (hy1 : 1 ≤ y) (hy2 : y ≤ 9999) :
    mkDate y 12 31 = .ok ⟨y, 12, 31⟩ := by
  unfold mkDate
  rw [if_pos ⟨hy1, hy2, by norm_num, by norm_num, by norm_num,
    by cases isLeap y <;> decide⟩]

/-! ### Reducing `categorize_deadline` -/

/-- With a non-matching string status, classification reduces to the date
buckets on the resolved date. -/
theorem categorize_reduce (pdParse : List Char → Option Date) (v : RawVal)
    (s : String) (today d : Date)
    (hs : hasSubstr inForceChars (pyLower s.toList) = false)
    (he : extract_deadline_as_date pdParse v = .ok (some d)) :
    categorize_deadline pdParse v (.strV s) today =
      (if Date.le d today then .ok "In force"
       else if (toOrdinal d : Int) - (toOrdinal today : Int) ≤ 365 then
         .ok "Due < 1 year"
       else .ok "Due > 1 year") := by
  have hst : statusInForce (.strV s) = false := hs
  unfold categorize_deadline
  rw [he, if_neg (by rw [hst]; simp)]

/-- With a non-matching string status and an unresolved date, the default
bucket is returned. -/
theorem categorize_reduce_none (pdParse : List Char → Option Date) (v : RawVal)
    (s : String) (today : Date)
    (hs : hasSubstr inForceChars (pyLower s.toList) = false)
    (he : extract_deadline_as_date pdParse v = .ok none) :
    categorize_deadline pdParse v (.strV s) today = .ok "Due > 1 year" := by
  have hst : statusInForce (.strV s) = false := hs
  unfold categorize_deadline
  rw [he, if_neg (by rw [hst]; simp)]

/-! ### The resolver on the inputs the claims quantify over -/

theorem length_four (l : List Char) (h : l.length = 4) :
    ∃ a b c d, l = [a, b, c, d] := by
  rcases l with _ | ⟨a, _ | ⟨b, _ | ⟨c, _ | ⟨d, _ | ⟨e, t⟩⟩⟩⟩⟩
  · simp at h
  · simp at h
  · simp at h
  · simp at h
  · exact ⟨a, b, c, d, rfl⟩
  · simp only [List.length_cons] at h; omega

theorem length_five_split (l : List Char) (h : 5 ≤ l.length) :
    ∃ a b c d e t, l = a :: b :: c :: d :: e :: t := by
  rcases l with _ | ⟨a, _ | ⟨b, _ | ⟨c, _ | ⟨d, _ | ⟨e, t⟩⟩⟩⟩⟩
  · simp at h
  · simp at h
  · simp at h
  · simp at h
  · simp at h
  · exact ⟨a, b, c, d, e, t, rfl⟩

/-- Quarter rule: whenever `Q_PAT` matches the stripped text (with a
representable year), the resolver returns the end of that quarter,
whatever else the text contains. -/
theorem extract_quarter (pd : List Char → Option Date) (s : String) (q y : Nat)
    (hq : Q_PAT_search (pyStrip s.toList) = some (q, y)) (hy : 1 ≤ y) :
    extract_deadline_as_date pd (.strV s) = .ok (some (specEndOfQuarter y q)) := by
  obtain ⟨hq1, hq2, hy2⟩ := Q_PAT_search_bounds _ q y hq
  show extractFromText pd (pyStrip s.toList) none = _
  unfold extractFromText
  have hne : (pyStrip s.toList).isEmpty = false := by
    cases hl : pyStrip s.toList
    · rw [hl] at hq; exact Option.noConfusion hq
    · rfl
  rw [if_neg (by rw [hne]; simp), hq]
  show Except.map some (_end_of_quarter y q) = _
  rw [end_of_quarter_eval y q hy hy2 hq1 hq2]
  rfl

/-- Bare-year rule: when the entire stripped text is four digit characters
(with a nonzero value), the resolver returns December 31 of that year. -/
theorem extract_bare_year (pd : List Char → Option Date) (s : String)
    (l : List Char) (hl : pyStrip s.toList = l) (hlen : l.length = 4)
    (hdig : ∀ c ∈ l, c.isDigit = true) (hpos : 1 ≤ digitsToNat l) :
    extract_deadline_as_date pd (.strV s) = .ok (some ⟨digitsToNat l, 12, 31⟩) := by
  obtain ⟨a, b, c, d, rfl⟩ := length_four l hlen
  show extractFromText pd (pyStrip s.toList) none = _
  rw [hl]
  unfold extractFromText
  rw [if_neg (by simp)]
  rw [Q_PAT_search_digits _ hdig]
  rw [YEAR_PAT_match_four a b c d hdig]
  have hle := digitsToNat_four_le a b c d (hdig a (by simp)) (hdig b (by simp))
    (hdig c (by simp)) (hdig d (by simp))
  show Except.map some (mkDate (digitsToNat [a, b, c, d]) 12 31) = _
  rw [mkDate_dec31 _ hpos (by omega)]
  rfl

/-- Embedded-fragment rule: with no quarter token and no bare year, a
fragment found by `DATE_IN_TEXT_PAT` that one of the four `strptime`
formats accepts is what the resolver returns. -/
theorem extract_fragment (pd : List Char → Option Date) (s : String)
    (frag : List Char) (d : Date)
    (hq : Q_PAT_search (pyStrip s.toList) = none)
    (hyr : YEAR_PAT_match (pyStrip s.toList) = none)
    (hdt : DATE_IN_TEXT_PAT_search (pyStrip s.toList) = some frag)
    (hst : strptimeChain frag = some d) :
    extract_deadline_as_date pd (.strV s) = .ok (some d) := by
  show extractFromText pd (pyStrip s.toList) none = _
  unfold extractFromText
  have hne : (pyStrip s.toList).isEmpty = false := by
    cases hl : pyStrip s.toList
    · rw [hl] at hdt; exact Option.noConfusion hdt
    · rfl
  have hfr : (match DATE_IN_TEXT_PAT_search (pyStrip s.toList) with
      | some frag =>
        match strptimeChain frag with
        | some d => some d
        | none => pd frag
      | none => none) = some d := by
    rw [hdt]
    show (match strptimeChain frag with
      | some d => some d
      | none => pd frag) = some d
    rw [hst]
  rw [if_neg (by rw [hne]; simp), hq, hyr, hfr]

/-- Spreadsheet-serial rule for integers: a raw `int` above 20000 whose
serial stays inside the representable range resolves through the Excel
epoch. -/
theorem extract_int_serial (pd : List Char → Option Date) (n : Int)
    (h20 : 20000 < n) (hr : n ≤ 2958465) :
    extract_deadline_as_date pd (.intV n) =
      .ok (some (fromOrdinal (693594 + n.toNat))) := by
  have hm1 : (20000 : Nat) < n.toNat := by omega
  obtain ⟨hdig, hval, hle, hge⟩ := natDigitChars_spec n.toNat (by omega)
  have hlen : 5 ≤ (natDigitChars n.toNat).length := hge 4 (by omega)
  have hstr : pyStrInt n = natDigitChars n.toNat := by
    unfold pyStrInt
    rw [if_neg (by omega)]
  show extractFromText pd (pyStrip (pyStrInt n)) (some (n, false)) = _
  rw [hstr, pyStrip_no_space _ (fun c hc => isDigit_not_space c (hdig c hc))]
  obtain ⟨a, b, c, d, e, t, hsplit⟩ := length_five_split _ hlen
  unfold extractFromText
  rw [if_neg (by rw [hsplit]; simp)]
  rw [Q_PAT_search_digits _ hdig]
  rw [show YEAR_PAT_match (natDigitChars n.toNat) = none by
    rw [hsplit]
    exact YEAR_PAT_match_long a b c d e t (hsplit ▸ hdig)]
  rw [DATE_IN_TEXT_PAT_search_digits _ hdig]
  have hepoch : toOrdinal ⟨1899, 12, 30⟩ = 693594 := by decide
  have hgt : numGt20000 (n, false) = true := by
    show (decide (20000 < n) || (decide (n = 20000) && false)) = true
    rw [decide_eq_true h20]
    simp
  have hser : _excel_serial_to_date (n, false) =
      some (fromOrdinal (693594 + n.toNat)) := by
    show (if (1 : Int) ≤ (toOrdinal ⟨1899, 12, 30⟩ : Int) + n ∧
          (toOrdinal ⟨1899, 12, 30⟩ : Int) + n ≤ (maxOrdinal : Int) then
        some (fromOrdinal (((toOrdinal ⟨1899, 12, 30⟩ : Int) + n).toNat))
      else none) = some (fromOrdinal (693594 + n.toNat))
    rw [hepoch]
    rw [if_pos (by unfold maxOrdinal; omega)]
    have hcast : (((693594 : Nat) : Int) + n).toNat = 693594 + n.toNat := by omega
    rw [hcast]
  show (if numGt20000 (n, false) = true then
      match _excel_serial_to_date (n, false) with
      | some d => Except.ok (some d)
      | none => Except.ok (pd (natDigitChars n.toNat))
    else Except.ok (pd (natDigitChars n.toNat))) = _
  rw [if_pos hgt, hser]

/-! ### Reflexivity of the Python date comparison -/

theorem dateLe_refl (d : Date) : Date.le d d = true := by
  unfold Date.le
  simp

/-! ### The claims -/

/-- C1: for every raw deadline value and every status text containing
"in force" case-insensitively, `categorize_deadline` returns "In force"
unconditionally, whatever the deadline resolves to. -/
theorem claim_C1 (pd : List Char → Option Date) (v : RawVal) (s : String)
    (today : Date) (h : hasSubstr inForceChars (pyLower s.toList) = true) :
    categorize_deadline pd v (.strV s) today = .ok "In force" := by
  unfold categorize_deadline
  rw [if_pos (show statusInForce (.strV s) = true from h)]

theorem claim_C1_witness :
    categorize_deadline pdNone (.dateV ⟨2999, 1, 1⟩)
      (.strV "Rule is IN FORCE since 2020") ⟨2025, 10, 12⟩ = .ok "In force" :=
  claim_C1 pdNone (.dateV ⟨2999, 1, 1⟩) "Rule is IN FORCE since 2020"
    ⟨2025, 10, 12⟩ (by decide)

/-- C2: with a non-overriding status text and a resolved date `d`, the
classifier returns "In force" when `d <= today`, "Due < 1 year" when
`0 < (d - today).days <= 365`, and "Due > 1 year" otherwise; in
particular `today` itself is "In force", `today + 365` days is
"Due < 1 year" and `today + 366` days is "Due > 1 year". -/
theorem claim_C2 (pd : List Char → Option Date) (v : RawVal) (s : String)
    (d today : Date)
    (hs : hasSubstr inForceChars (pyLower s.toList) = false)
    (hd : DateValid d) (ht : DateValid today)
    (he : extract_deadline_as_date pd v = .ok (some d)) :
    (Date.le d today = true →
      categorize_deadline pd v (.strV s) today = .ok "In force") ∧
    ((0 < (toOrdinal d : Int) - (toOrdinal today : Int) ∧
        (toOrdinal d : Int) - (toOrdinal today : Int) ≤ 365) →
      categorize_deadline pd v (.strV s) today = .ok "Due < 1 year") ∧
    ((Date.le d today = false ∧
        ¬ (0 < (toOrdinal d : Int) - (toOrdinal today : Int) ∧
            (toOrdinal d : Int) - (toOrdinal today : Int) ≤ 365)) →
      categorize_deadline pd v (.strV s) today = .ok "Due > 1 year") ∧
    (d = today →
      categorize_deadline pd v (.strV s) today = .ok "In force") ∧
    ((toOrdinal d : Int) = (toOrdinal today : Int) + 365 →
      categorize_deadline pd v (.strV s) today = .ok "Due < 1 year") ∧
    ((toOrdinal d : Int) = (toOrdinal today : Int) + 366 →
      categorize_deadline pd v (.strV s) today = .ok "Due > 1 year") := by
  have hred := categorize_reduce pd v s today d hs he
  have hbridge := Date.le_iff_toOrdinal d today hd ht
  have hfalse_of_pos :
      0 < (toOrdinal d : Int) - (toOrdinal today : Int) →
        Date.le d today = false := by
    intro hpos
    cases hlv : Date.le d today
    · rfl
    · exfalso
      have := hbridge.mp hlv
      omega
  refine ⟨?_, ?_, ?_, ?_, ?_, ?_⟩
  · intro hle
    rw [hred, if_pos hle]
  · rintro ⟨hpos, hle365⟩
    rw [hred, if_neg (by rw [hfalse_of_pos hpos]; simp), if_pos hle365]
  · rintro ⟨hlef, hnot⟩
    have hpos : 0 < (toOrdinal d : Int) - (toOrdinal today : Int) := by
      rcases Int.lt_or_le 0 ((toOrdinal d : Int) - (toOrdinal today : Int)) with hp | hp
      · exact hp
      · exfalso
        have : Date.le d today = true := hbridge.mpr (by omega)
        rw [hlef] at this
        exact Bool.false_ne_true this
    rw [hred, if_neg (by rw [hlef]; simp), if_neg (by omega)]
  · intro hdt
    subst hdt
    rw [hred, if_pos (dateLe_refl d)]
  · intro h365
    rw [hred, if_neg (by rw [hfalse_of_pos (by omega)]; simp), if_pos (by omega)]
  · intro h366
    rw [hred, if_neg (by rw [hfalse_of_pos (by omega)]; simp), if_neg (by omega)]

theorem claim_C2_witness :
    categorize_deadline pdNone (.dateV ⟨2026, 1, 1⟩) (.strV "") ⟨2025, 10, 12⟩ =
      .ok "Due < 1 year" :=
  (claim_C2 pdNone (.dateV ⟨2026, 1, 1⟩) "" ⟨2026, 1, 1⟩ ⟨2025, 10, 12⟩
    (by decide) (by decide) (by decide) (by decide)).2.1 (by decide)

/-- C3: with a non-overriding status text, an unresolved deadline is
classified "Due > 1 year". -/
theorem claim_C3 (pd : List Char → Option Date) (v : RawVal) (s : String)
    (today : Date)
    (hs : hasSubstr inForceChars (pyLower s.toList) = false)
    (he : extract_deadline_as_date pd v = .ok none) :
    categorize_deadline pd v (.strV s) today = .ok "Due > 1 year" :=
  categorize_reduce_none pd v s today hs he

theorem claim_C3_witness :
    categorize_deadline pdNone (.strV "TBD") (.strV "pending") ⟨2025, 10, 12⟩ =
      .ok "Due > 1 year" :=
  claim_C3 pdNone (.strV "TBD") "pending" ⟨2025, 10, 12⟩ (by decide) (by decide)

/-- C4: the claim says classification never raises and that malformed
values degrade to Unresolved; in fact the bare-year branch calls the
`date` constructor unprotected, so the text "0000" (a dirty-data value)
raises `ValueError: year 0 is out of range` out of both `resolve` and
`classify`, and a multi-element list raises already at the `pd.isna`
truth test. -/
theorem claim_C4 :
    categorize_deadline pdNone (.strV "0000") .nonStr ⟨2025, 10, 12⟩ = .error () ∧
    extract_deadline_as_date pdNone (.strV "0000") = .error () ∧
    extract_deadline_as_date pdNone .listV = .error () := by
  decide

/-- C5 (amended): for every text in which `Q_PAT` finds a quarter token
whose 4-digit year is at least 0001, the resolver returns the last
calendar day of that quarter of that year, taking precedence over any
embedded date fragment; for year "0000" the code raises instead (see the
counterexample). -/
theorem claim_C5 (pd : List Char → Option Date) (s : String) (q y : Nat)
    (hq : Q_PAT_search (pyStrip s.toList) = some (q, y)) (hy : 1 ≤ y) :
    extract_deadline_as_date pd (.strV s) = .ok (some (specEndOfQuarter y q)) :=
  extract_quarter pd s q y hq hy

theorem claim_C5_witness :
    extract_deadline_as_date pdNone (.strV "Estimated Q1 2026, was 2025-01-01") =
      .ok (some ⟨2026, 3, 31⟩) :=
  claim_C5 pdNone "Estimated Q1 2026, was 2025-01-01" 1 2026 (by decide) (by decide)

/-- C5 counterexample: "Q1 0000" contains a quarter token with a 4-digit
year, but the resolver raises a `ValueError` instead of returning the
last day of that quarter (year 0 is not a representable date). -/
theorem claim_C5_cex :
    Q_PAT_search (pyStrip ("Q1 0000").toList) = some (1, 0) ∧
    extract_deadline_as_date pdNone (.strV "Q1 0000") = .error () := by
  decide

/-- C6 (amended): a numeric raw value strictly greater than 20000 (signed
comparison, not magnitude) whose serial stays within the representable
date range resolves to the legacy epoch 1899-12-30 plus that many days. -/
theorem claim_C6 (pd : List Char → Option Date) (n : Int)
    (h1 : 20000 < n) (h2 : n ≤ 2958465) :
    ∃ dd, extract_deadline_as_date pd (.intV n) = .ok (some dd) ∧
      DateValid dd ∧
      (toOrdinal dd : Int) = (toOrdinal ⟨1899, 12, 30⟩ : Int) + n := by
  refine ⟨fromOrdinal (693594 + n.toNat), extract_int_serial pd n h1 h2, ?_, ?_⟩
  · exact (fromOrdinal_spec (693594 + n.toNat) (by omega)
      (by unfold maxOrdinal; omega)).1
  · have hrt := (fromOrdinal_spec (693594 + n.toNat) (by omega)
      (by unfold maxOrdinal; omega)).2
    have hep : toOrdinal ⟨1899, 12, 30⟩ = 693594 := by decide
    rw [hrt, hep]
    omega

theorem claim_C6_witness :
    ∃ dd, extract_deadline_as_date pdNone (.intV 45000) = .ok (some dd) ∧
      DateValid dd ∧
      (toOrdinal dd : Int) = (toOrdinal ⟨1899, 12, 30⟩ : Int) + 45000 :=
  claim_C6 pdNone 45000 (by decide) (by decide)

/-- C6 counterexample: the claim as stated quantifies over magnitude; the
code compares the signed value, so the numeric value -30000 (magnitude
30000 > 20000) is not interpreted as a serial: it falls through to the
generic fallback and resolves to Unresolved, not to 1899-12-30 minus
30000 days. -/
theorem claim_C6_cex :
    ¬ (∀ (pd : List Char → Option Date) (n : Int), 20000 < n.natAbs →
        ∃ dd, extract_deadline_as_date pd (.intV n) = .ok (some dd) ∧
          (toOrdinal dd : Int) = (toOrdinal ⟨1899, 12, 30⟩ : Int) + n) := by
  intro h
  obtain ⟨dd, hdd, -⟩ := h pdNone (-30000) (by decide)
  rw [show extract_deadline_as_date pdNone (.intV (-30000)) = .ok none from by decide]
    at hdd
  exact Option.noConfusion (Except.ok.inj hdd)

/-- C7 (amended): every string whose entire trimmed content is exactly
four digit characters with a nonzero value resolves to December 31 of
that year; the all-zero year "0000" instead raises (see the
counterexample). -/
theorem claim_C7 (pd : List Char → Option Date) (s : String) (l : List Char)
    (hl : pyStrip s.toList = l) (hlen : l.length = 4)
    (hdig : ∀ c ∈ l, c.isDigit = true) (hpos : 1 ≤ digitsToNat l) :
    extract_deadline_as_date pd (.strV s) = .ok (some ⟨digitsToNat l, 12, 31⟩) :=
  extract_bare_year pd s l hl hlen hdig hpos

theorem claim_C7_witness :
    extract_deadline_as_date pdNone (.strV "2027") = .ok (some ⟨2027, 12, 31⟩) :=
  claim_C7 pdNone "2027" ['2', '0', '2', '7'] (by decide) (by decide) (by decide)
    (by decide)

/-- C7 counterexample: the trimmed content of "0000" is exactly a 4-digit
number, yet the resolver raises a `ValueError` (December 31 of year 0 is
not a representable date) instead of returning a resolved date. -/
theorem claim_C7_cex :
    pyStrip ("0000").toList = ['0', '0', '0', '0'] ∧
    extract_deadline_as_date pdNone (.strV "0000") = .error () := by
  decide

/-- C8: with no quarter token and no bare year, a fragment found by
`DATE_IN_TEXT_PAT` that the `strptime` chain parses (formats tried with
ISO `%Y-%m-%d` first) is exactly what the resolver returns. -/
theorem claim_C8 (pd : List Char → Option Date) (s : String)
    (frag : List Char) (d : Date)
    (hq : Q_PAT_search (pyStrip s.toList) = none)
    (hyr : YEAR_PAT_match (pyStrip s.toList) = none)
    (hdt : DATE_IN_TEXT_PAT_search (pyStrip s.toList) = some frag)
    (hst : strptimeChain frag = some d) :
    extract_deadline_as_date pd (.strV s) = .ok (some d) :=
  extract_fragment pd s frag d hq hyr hdt hst

theorem claim_C8_witness :
    extract_deadline_as_date pdNone (.strV "Estimated 2026-01-01") =
      .ok (some ⟨2026, 1, 1⟩) :=
  claim_C8 pdNone "Estimated 2026-01-01" ("2026-01-01".toList) ⟨2026, 1, 1⟩
    (by decide) (by decide) (by decide) (by decide)

/-- C9: an integer between 1000 and 9999 given as a raw `int` is
stringified to four digits and captured by the bare-year rule before the
spreadsheet-serial branch is consulted, resolving to December 31 of that
year. -/
theorem claim_C9 (pd : List Char → Option Date) (n : Int)
    (h1 : 1000 ≤ n) (h2 : n ≤ 9999) :
    extract_deadline_as_date pd (.intV n) = .ok (some ⟨n.toNat, 12, 31⟩) := by
  obtain ⟨hdig, hval, hle, hge⟩ := natDigitChars_spec n.toNat (by omega)
  have hlen : (natDigitChars n.toNat).length = 4 := by
    have hp4 : (10 : Nat) ^ 4 = 10000 := by norm_num
    have hp3 : (10 : Nat) ^ 3 = 1000 := by norm_num
    have ha := hle 4 (by omega)
    have hb := hge 3 (by omega)
    omega
  obtain ⟨a, b, c, d, hnd⟩ := length_four _ hlen
  have hstr : pyStrInt n = natDigitChars n.toNat := by
    unfold pyStrInt
    rw [if_neg (by omega)]
  show extractFromText pd (pyStrip (pyStrInt n)) (some (n, false)) = _
  rw [hstr, pyStrip_no_space _ (fun c hc => isDigit_not_space c (hdig c hc)), hnd]
  have hdig2 : ∀ x ∈ [a, b, c, d], x.isDigit = true := hnd ▸ hdig
  unfold extractFromText
  rw [if_neg (by simp)]
  rw [Q_PAT_search_digits _ hdig2]
  rw [YEAR_PAT_match_four a b c d hdig2]
  have hv : digitsToNat [a, b, c, d] = n.toNat := hnd ▸ hval
  show Except.map some (mkDate (digitsToNat [a, b, c, d]) 12 31) = _
  rw [hv, mkDate_dec31 _ (by omega) (by omega)]
  rfl

theorem claim_C9_witness :
    extract_deadline_as_date pdNone (.intV 2027) = .ok (some ⟨2027, 12, 31⟩) :=
  claim_C9 pdNone 2027 (by decide) (by decide)

/-- C10: a non-string status value never triggers the "in force" override
and does not raise: classification behaves exactly as with a
non-matching string status, and the category depends only on the result
of the resolver and the evaluation date. -/
theorem claim_C10 (pd pd2 : List Char → Option Date) (v v2 : RawVal)
    (s : String) (today : Date)
    (hs : hasSubstr inForceChars (pyLower s.toList) = false)
    (he : extract_deadline_as_date pd v = extract_deadline_as_date pd2 v2) :
    categorize_deadline pd v (.strV s) today =
      categorize_deadline pd2 v2 .nonStr today := by
  have h1 : statusInForce (.strV s) = false := hs
  unfold categorize_deadline
  rw [he, if_neg (by rw [h1]; simp), if_neg (by decide)]

theorem claim_C10_witness :
    categorize_deadline pdNone (.strV "TBD") (.strV "pending") ⟨2025, 10, 12⟩ =
      categorize_deadline pdNone .missing .nonStr ⟨2025, 10, 12⟩ :=
  claim_C10 pdNone pdNone (.strV "TBD") .missing "pending" ⟨2025, 10, 12⟩
    (by decide) (by decide)
